import Mathlib

/-!
Verification of the flight-computer telemetry core of `rust-rocket`.

The development shallowly embeds the Rust sources:
* `src/altimeter.rs` — the scalar Kalman filter (`KalmanState`), the
  barometric altitude formula (`calc_altitude`), the running statistics
  (`AltimeterStats`) and the pure tail of `Altimeter::update_stats`
  (everything after the sensor read).  `f64` arithmetic is modelled by `ℝ`.
* `src/telemetry.rs` — the 16-byte little-endian wire codec.  Bytes are `Nat`
  values (< 256 on well-formed buffers); an `f32` field is modelled by its
  32-bit pattern, under which `put_f32_le`/`get_f32_le` are exact inverses.
  A Rust panic (out-of-bounds slice, `bytes::Buf` underflow) is modelled as
  `Option.none`.
* `src/main.rs` — the command-interpreter thread (the chain of
  `starts_with` tests) and the streaming tail of the sampling loop, as pure
  state-transition functions on the fields those loops mutate.
-/

namespace Rocket

/-! ## `src/altimeter.rs`: KalmanState (f64 fields modelled by ℝ) -/

structure KalmanState where
  n : ℕ
  x : ℝ
  next_x : ℝ
  p : ℝ
  next_p : ℝ

/-- `KalmanState::new(p_0, x_0)` (altimeter.rs:22-30). -/
def KalmanState.new (p_0 x_0 : ℝ) : KalmanState :=
  { n := 0, x := x_0, next_x := x_0, p := p_0, next_p := p_0 }

/-- `KalmanState::update(&mut self, r_n, z_n, q)` (altimeter.rs:31-46):
gain `k_n = next_p / (next_p + r_n)`; `x = next_x + k_n * (z_n - next_x)`;
`p = next_p * (1 - k_n)`; `n += 1`; `next_x = x`; `next_p = p + q`. -/
noncomputable def KalmanState.update (s : KalmanState) (r_n z_n q : ℝ) : KalmanState :=
  let k_n := s.next_p / (s.next_p + r_n)
  let x := s.next_x + k_n * (z_n - s.next_x)
  let p := s.next_p * (1 - k_n)
  { n := s.n + 1, x := x, next_x := x, p := p, next_p := p + q }

/-- Modelled from the spec's words, for comparison with the source's
`KalmanState.update`: "gain `k = prior_variance / (prior_variance +
measurement_noise)`; `estimate = prior_estimate + k * (measurement -
prior_estimate)`; `variance = prior_variance * (1 - k)`; next prior =
`(estimate, variance + process_noise)`".  Returns
`(estimate, variance, next_prior_estimate, next_prior_variance)`. -/
noncomputable def kalmanSpecStep (prior_estimate prior_variance measurement_noise
    measurement process_noise : ℝ) : ℝ × ℝ × ℝ × ℝ :=
  let k := prior_variance / (prior_variance + measurement_noise)
  let estimate := prior_estimate + k * (measurement - prior_estimate)
  let variance := prior_variance * (1 - k)
  (estimate, variance, estimate, variance + process_noise)

/-- `calc_altitude(pressure, sea_level_atmospheres)` (altimeter.rs:195-197):
`(1 - (pressure / sea_level_atmospheres).powf(0.190284)) * 145366.45`.
Rust's `f64::powf` on a positive base is real exponentiation, `Real.rpow`. -/
noncomputable def calc_altitude (pressure sea_level_atmospheres : ℝ) : ℝ :=
  (1 - (pressure / sea_level_atmospheres) ^ (0.190284 : ℝ)) * 145366.45

/-- The exact real value of Rust's `f64::MAX`, `(2^53 - 1) * 2^971`. -/
def f64MAX : ℝ := (2 ^ 53 - 1) * 2 ^ 971

/-- The exact real value of Rust's `f64::MIN`, `-f64::MAX`. -/
def f64MIN : ℝ := -f64MAX

structure AltimeterStats where
  maximum_altitude : ℝ
  minimum_altitude : ℝ
  maximum_temperature : ℝ
  minimum_temperature : ℝ
  maximum_pressure : ℝ
  minimum_pressure : ℝ
  altitude : ℝ
  temperature : ℝ
  pressure : ℝ
  filtered_pressure : ℝ
  kalman_state : KalmanState

/-- `AltimeterStats::default()` (altimeter.rs:65-82): extrema seeded with
`f64::MIN`/`f64::MAX`, current values zero, Kalman seed
`KalmanState::new(102178.0, 2500.0)`. -/
def AltimeterStats.default : AltimeterStats :=
  { maximum_altitude := f64MIN
    minimum_altitude := f64MAX
    maximum_temperature := f64MIN
    minimum_temperature := f64MAX
    maximum_pressure := f64MIN
    minimum_pressure := f64MAX
    altitude := 0
    temperature := 0
    pressure := 0
    filtered_pressure := 0
    kalman_state := KalmanState.new 102178 2500 }

/-- The pure tail of `Altimeter::update_stats` (altimeter.rs:166-191), after
the sensor has produced `temperature` and `pressure` and with the current
`sea_level_pressure` read from its cell: store the raw readings, run
`kalman_state.update(1.0, pressure, 0.4)`, set `filtered_pressure` to the
filter's `x`, compute `altitude = calc_altitude(filtered_pressure,
sea_level_pressure)`, then fold the three readings into the running extrema
with `f64::max` / `f64::min`. -/
noncomputable def updateStats (stats : AltimeterStats)
    (sea_level_pressure temperature pressure : ℝ) : AltimeterStats :=
  let ks := stats.kalman_state.update 1 pressure 0.4
  let filtered := ks.x
  let altitude := calc_altitude filtered sea_level_pressure
  { stats with
    temperature := temperature
    pressure := pressure
    kalman_state := ks
    filtered_pressure := filtered
    altitude := altitude
    maximum_temperature := max stats.maximum_temperature temperature
    minimum_temperature := min stats.minimum_temperature temperature
    minimum_altitude := min stats.minimum_altitude altitude
    maximum_altitude := max stats.maximum_altitude altitude
    maximum_pressure := max stats.maximum_pressure pressure
    minimum_pressure := min stats.minimum_pressure pressure }

/-- One step of the filter as driven by `update_stats` (altimeter.rs:173):
measurement noise `1.0`, process noise `0.4`, measurement `z`. -/
noncomputable def kstep (z : ℝ) (s : KalmanState) : KalmanState := s.update 1 z 0.4

/-! ## `src/telemetry.rs`: the wire codec

A `u32` field is a `Nat`; an `f32` field is modelled by its 32-bit pattern
(a `Nat`), since `put_f32_le` writes exactly the four bytes of
`f32::to_bits` and `get_f32_le` reads them back. -/

structure Telemetry where
  time : ℕ
  altitude : ℕ
  temperature : ℕ
  battery_voltage : ℕ
deriving DecidableEq, Repr

/-- The four little-endian bytes written by `put_u32_le` / `put_f32_le`. -/
def u32leBytes (v : ℕ) : List ℕ :=
  [v % 256, v / 256 % 256, v / 2 ^ 16 % 256, v / 2 ^ 24 % 256]

/-- `bytes::Buf::get_u32_le` (also `get_f32_le`, at the bit-pattern level):
consume four little-endian bytes.  `bytes::Buf` panics when fewer than four
bytes remain; the panic is modelled as `none`. -/
def getU32le (l : List ℕ) : Option (ℕ × List ℕ) :=
  match l with
  | b0 :: b1 :: b2 :: b3 :: rest =>
      some (b0 + b1 * 256 + b2 * 2 ^ 16 + b3 * 2 ^ 24, rest)
  | _ => none

/-- The 16-byte payload assembled in `Telemetry::as_bytes`
(telemetry.rs:37-42): `time` then `altitude`, `temperature`,
`battery_voltage`, each four bytes little-endian. -/
def Telemetry.encoded (t : Telemetry) : List ℕ :=
  u32leBytes t.time ++ u32leBytes t.altitude ++ u32leBytes t.temperature ++
    u32leBytes t.battery_voltage

/-- `Telemetry::as_bytes(&self, buffer)` (telemetry.rs:36-47): build the
16-byte payload, then `buffer[..buf.len()].copy_from_slice(&buf)` and return
`Ok(())`.  The result is the new contents of `buffer`; the slice expression
panics when `buffer` is shorter than the payload, modelled as `none`. -/
def Telemetry.as_bytes (t : Telemetry) (buffer : List ℕ) : Option (List ℕ) :=
  let buf := t.encoded
  if buf.length ≤ buffer.length then some (buf ++ buffer.drop buf.length)
  else none

/-- `Telemetry::from_bytes(buffer)` (telemetry.rs:49-58): four successive
little-endian reads, wrapped in `Ok`.  The outer `Option` is `none` exactly
when one of the `bytes::Buf` reads panics; the inner `Except Unit` mirrors
the Rust `Result<Telemetry, ()>`, whose error branch the source never
takes. -/
def Telemetry.from_bytes (buffer : List ℕ) : Option (Except Unit Telemetry) :=
  match getU32le buffer with
  | none => none
  | some (time, r1) =>
    match getU32le r1 with
    | none => none
    | some (altitude, r2) =>
      match getU32le r2 with
      | none => none
      | some (temperature, r3) =>
        match getU32le r3 with
        | none => none
        | some (battery_voltage, _) =>
            some (Except.ok
              { time := time, altitude := altitude,
                temperature := temperature,
                battery_voltage := battery_voltage })

/-! ## `src/main.rs`: command interpreter and sampling loop

The command thread (main.rs:99-200) and the streaming tail of the sampling
loop (main.rs:216-245) mutate: the shared `State { telemetry_addr,
streaming }`, the `recording` vector, the buzzer (a one-shot side effect)
and the outbound `data_sender` queue.  `CommandState` gathers exactly those
fields; a peer address (`[u8; 6]`) is a list of bytes.  The `inhg` and
`reset` branches act only on the altimeter (sea-level cell, stats reset) and
are the identity on these fields, as in the source. -/

structure CommandState where
  streaming : Bool
  telemetry_addr : Option (List ℕ)
  recording : List Telemetry
  buzzerFired : Bool
  sent : List (List ℕ × List ℕ)
deriving DecidableEq, Repr

/-- Rust `str::trim` on the command line (main.rs:141, 178). -/
def trimChars (l : List Char) : List Char :=
  ((l.dropWhile Char.isWhitespace).reverse.dropWhile Char.isWhitespace).reverse

/-- Rust `str::split(' ')`: the (possibly empty) chunks between spaces. -/
def splitOnSpace (l : List Char) : List (List Char) :=
  match l with
  | [] => [[]]
  | c :: cs =>
    if c = ' ' then [] :: splitOnSpace cs
    else
      match splitOnSpace cs with
      | [] => [[c]]
      | h :: t => (c :: h) :: t

/-- Rust `str::parse::<usize>` (main.rs:143), without the overflow error:
an optional leading `+`, then one or more ASCII digits. -/
def parseNat? (l : List Char) : Option ℕ :=
  let digits := fun (d : List Char) =>
    if d ≠ [] ∧ d.all Char.isDigit then
      some (d.foldl (fun a c => a * 10 + (c.toNat - 48)) 0)
    else none
  match l with
  | '+' :: rest => digits rest
  | _ => digits l

/-- The `re_tx <index>` branch body (main.rs:140-175): split the trimmed
line on spaces; if there are at least two parts and the second parses as a
number, look the index up in `recording`; if present and a peer address is
set, serialize into a zeroed 33-byte buffer and send it to that peer.  All
other cases log and fall through. -/
def handleRetx (st : CommandState) (data : List Char) : CommandState :=
  match splitOnSpace (trimChars data) with
  | _ :: p1 :: _ =>
    match parseNat? p1 with
    | some num =>
      match st.recording.get? num with
      | some telemetry =>
        match st.telemetry_addr with
        | some addr =>
          match telemetry.as_bytes (List.replicate 33 0) with
          | some buffer => { st with sent := st.sent ++ [(addr, buffer)] }
          | none => st
        | none => st
      | none => st
    | none => st
  | _ => st

/-- One iteration of the command thread (main.rs:115-198) on a decoded
UTF-8 line `data` received from `mac_arr`: a chain of independent
`starts_with` tests, each applied to the state left by the previous one —
the source does not use `else`, so several branches can fire on one line. -/
def handleCommand (st : CommandState) (mac_arr : List ℕ) (data : List Char) :
    CommandState :=
  let st := if ['t', 'o', 'n', 'e'].isPrefixOf data then
    { st with buzzerFired := true } else st
  let st := if ['t', 'o', 'n'].isPrefixOf data then
    { st with recording := [], streaming := true,
              telemetry_addr := some mac_arr } else st
  let st := if ['t', 'o', 'f', 'f'].isPrefixOf data then
    { st with streaming := false } else st
  let st := if ['r', 'e', '_', 't', 'x'].isPrefixOf data then
    handleRetx st data else st
  st

/-- The streaming tail of one successful sampling cycle (main.rs:216-243),
with the cycle's telemetry record `t` already built: when `streaming` and a
peer address is set, push `t` onto `recording` if `len() < capacity` (the
vector is created with capacity 900, main.rs:95); only if the push happened,
serialize into a zeroed 33-byte buffer and send.  `_send_result` is the fate
of the transport send: the source discards it (`.ok()` on the channel send,
main.rs:242, and the datalink thread only logs a radio failure,
datalink.rs:93-104), so no field depends on it. -/
def samplingCycle (st : CommandState) (t : Telemetry) (_send_result : Bool) :
    CommandState :=
  if st.streaming then
    match st.telemetry_addr with
    | some addr =>
      if st.recording.length < 900 then
        let st := { st with recording := st.recording ++ [t] }
        match t.as_bytes (List.replicate 33 0) with
        | some buffer => { st with sent := st.sent ++ [(addr, buffer)] }
        | none => st
      else st
    | none => st
  else st

/-- The recording push of one cycle in isolation (main.rs:226-235):
append when `len() < capacity`, silently drop otherwise. -/
def tryPush (recording : List Telemetry) (t : Telemetry) : List Telemetry :=
  if recording.length < 900 then recording ++ [t] else recording

/-- Repeated cycles: push each record of `ts` in emission order. -/
def pushAll (recording : List Telemetry) (ts : List Telemetry) :
    List Telemetry :=
  ts.foldl tryPush recording

/-! ## Helper lemmas: the codec -/

theorem u32leBytes_length (v : ℕ) : (u32leBytes v).length = 4 := rfl

theorem encoded_length (t : Telemetry) : t.encoded.length = 16 := by
  simp [Telemetry.encoded, u32leBytes]

theorem getU32le_u32leBytes (v : ℕ) (hv : v < 2 ^ 32) (rest : List ℕ) :
    getU32le (u32leBytes v ++ rest) = some (v, rest) := by
  simp only [u32leBytes, List.cons_append, List.nil_append, getU32le]
  congr 1
  congr 1
  omega

theorem getU32le_eq_none (l : List ℕ) (h : l.length < 4) : getU32le l = none := by
  match l, h with
  | [], _ => rfl
  | [_], _ => rfl
  | [_, _], _ => rfl
  | [_, _, _], _ => rfl
  | _ :: _ :: _ :: _ :: _, h => simp at h; omega

theorem getU32le_drop (l : List ℕ) (h : 4 ≤ l.length) :
    ∃ v, getU32le l = some (v, l.drop 4) := by
  match l, h with
  | _ :: _ :: _ :: _ :: _, _ => exact ⟨_, rfl⟩

theorem as_bytes_of_le (t : Telemetry) (buffer : List ℕ)
    (h : 16 ≤ buffer.length) :
    t.as_bytes buffer = some (t.encoded ++ buffer.drop 16) := by
  simp [Telemetry.as_bytes, encoded_length, h]

theorem as_bytes_of_short (t : Telemetry) (buffer : List ℕ)
    (h : buffer.length < 16) : t.as_bytes buffer = none := by
  simp [Telemetry.as_bytes, encoded_length]
  omega

theorem from_bytes_encoded (t : Telemetry) (extra : List ℕ)
    (h1 : t.time < 2 ^ 32) (h2 : t.altitude < 2 ^ 32)
    (h3 : t.temperature < 2 ^ 32) (h4 : t.battery_voltage < 2 ^ 32) :
    Telemetry.from_bytes (t.encoded ++ extra) = some (Except.ok t) := by
  have e : t.encoded ++ extra =
      u32leBytes t.time ++ (u32leBytes t.altitude ++ (u32leBytes t.temperature
        ++ (u32leBytes t.battery_voltage ++ extra))) := by
    simp [Telemetry.encoded]
  rw [Telemetry.from_bytes, e, getU32le_u32leBytes _ h1]
  dsimp only
  rw [getU32le_u32leBytes _ h2]
  dsimp only
  rw [getU32le_u32leBytes _ h3]
  dsimp only
  rw [getU32le_u32leBytes _ h4]

theorem from_bytes_none_of_short (buffer : List ℕ)
    (h : buffer.length < 16) : Telemetry.from_bytes buffer = none := by
  rw [Telemetry.from_bytes]
  rcases Nat.lt_or_ge buffer.length 4 with h4 | h4
  · rw [getU32le_eq_none _ h4]
  obtain ⟨v1, e1⟩ := getU32le_drop buffer h4
  rw [e1]
  dsimp only
  rcases Nat.lt_or_ge (buffer.drop 4).length 4 with h8 | h8
  · rw [getU32le_eq_none _ h8]
  obtain ⟨v2, e2⟩ := getU32le_drop _ h8
  rw [e2]
  dsimp only
  rcases Nat.lt_or_ge ((buffer.drop 4).drop 4).length 4 with h12 | h12
  · rw [getU32le_eq_none _ h12]
  obtain ⟨v3, e3⟩ := getU32le_drop _ h12
  rw [e3]
  dsimp only
  have h16 : (((buffer.drop 4).drop 4).drop 4).length < 4 := by
    simp only [List.length_drop]
    omega
  rw [getU32le_eq_none _ h16]

/-! ## Claim theorems: the codec -/

/-- C2.  Codec round-trip: decoding the 16-byte little-endian encoding of a
record `t` (order `time` u32, `altitude` f32, `temperature` f32,
`battery_voltage` f32, each field modelled by its 32-bit pattern) yields
`Ok t` again, for any trailing bytes `extra` appended to the buffer. -/
theorem telemetry_roundtrip (t : Telemetry) (extra : List ℕ)
    (h1 : t.time < 2 ^ 32) (h2 : t.altitude < 2 ^ 32)
    (h3 : t.temperature < 2 ^ 32) (h4 : t.battery_voltage < 2 ^ 32) :
    Telemetry.from_bytes (t.encoded ++ extra) = some (Except.ok t) :=
  from_bytes_encoded t extra h1 h2 h3 h4

/-- Witness for C2 at `t = ⟨1, 2, 3, 4⟩` with two trailing bytes. -/
theorem telemetry_roundtrip_witness :
    (1 : ℕ) < 2 ^ 32 ∧
    Telemetry.from_bytes (Telemetry.encoded ⟨1, 2, 3, 4⟩ ++ [7, 7]) =
      some (Except.ok ⟨1, 2, 3, 4⟩) :=
  ⟨by decide,
    telemetry_roundtrip ⟨1, 2, 3, 4⟩ [7, 7] (by decide) (by decide)
      (by decide) (by decide)⟩

/-- C3, counterexample.  On a 15-byte buffer `from_bytes` panics — the
model's `none` — rather than returning any `Result` value, so it does not
return a `DecodeError::Truncated` error (no such error type exists in the
source; the Rust `Result` error type is `()` and is never produced). -/
theorem from_bytes_short_input_panics :
    Telemetry.from_bytes (List.replicate 15 0) = none := rfl

/-- C3 as amended: for every input buffer of fewer than 16 bytes,
`from_bytes` panics inside a `bytes::Buf` read (modelled `none`); it neither
returns a record nor an error value. -/
theorem from_bytes_truncated (buffer : List ℕ) (h : buffer.length < 16) :
    Telemetry.from_bytes buffer = none :=
  from_bytes_none_of_short buffer h

/-- Witness for the amended C3 at a 15-byte buffer. -/
theorem from_bytes_truncated_witness :
    (List.replicate 15 (0 : ℕ)).length < 16 ∧
    Telemetry.from_bytes (List.replicate 15 0) = none :=
  ⟨by decide, from_bytes_truncated (List.replicate 15 0) (by decide)⟩

/-- C10.  For every record and every output buffer of length at least 16,
`as_bytes` succeeds (returns `Ok(())`, modelled `some`): the buffer then
holds the 16-byte encoding followed by its original bytes from index 16 on,
unchanged.  For buffers shorter than 16 bytes the slice expression
`buffer[..16]` panics (modelled `none`) instead of returning an error. -/
theorem as_bytes_first_16_only (t : Telemetry) (buffer : List ℕ) :
    (16 ≤ buffer.length →
      t.as_bytes buffer = some (t.encoded ++ buffer.drop 16) ∧
      (t.encoded ++ buffer.drop 16).take 16 = t.encoded ∧
      (t.encoded ++ buffer.drop 16).drop 16 = buffer.drop 16) ∧
    (buffer.length < 16 → t.as_bytes buffer = none) := by
  constructor
  · intro h
    refine ⟨as_bytes_of_le t buffer h, ?_, ?_⟩
    · rw [← encoded_length t]
      exact List.take_left _ _
    · rw [← encoded_length t]
      exact List.drop_left _ _
  · exact as_bytes_of_short t buffer

/-- Witness for C10: the sampling loop's 33-byte zeroed buffer receives the
encoding of `⟨1, 2, 3, 4⟩` in its first 16 bytes and keeps its zero padding;
a 15-byte buffer panics. -/
theorem as_bytes_first_16_only_witness :
    (16 ≤ (List.replicate 33 (0 : ℕ)).length ∧
      Telemetry.as_bytes ⟨1, 2, 3, 4⟩ (List.replicate 33 0) =
        some (Telemetry.encoded ⟨1, 2, 3, 4⟩ ++
          (List.replicate 33 (0 : ℕ)).drop 16)) ∧
    ((List.replicate 15 (0 : ℕ)).length < 16 ∧
      Telemetry.as_bytes ⟨1, 2, 3, 4⟩ (List.replicate 15 0) = none) :=
  ⟨⟨by decide,
      ((as_bytes_first_16_only ⟨1, 2, 3, 4⟩ (List.replicate 33 0)).1
        (by decide)).1⟩,
    ⟨by decide,
      (as_bytes_first_16_only ⟨1, 2, 3, 4⟩ (List.replicate 15 0)).2
        (by decide)⟩⟩

/-! ## Helper lemmas: the recording buffer -/

theorem pushAll_eq_append_take (ts : List Telemetry) :
    ∀ rec : List Telemetry, rec.length ≤ 900 →
      pushAll rec ts = rec ++ ts.take (900 - rec.length) := by
  induction ts with
  | nil => intro rec _; simp [pushAll]
  | cons t ts ih =>
    intro rec h
    by_cases hlt : rec.length < 900
    · have step : pushAll rec (t :: ts) = pushAll (rec ++ [t]) ts := by
        simp [pushAll, List.foldl_cons, tryPush, hlt]
      rw [step, ih (rec ++ [t]) (by simp; omega)]
      have h9 : 900 - rec.length = (900 - (rec ++ [t]).length) + 1 := by
        simp
        omega
      rw [h9, List.take_succ_cons, List.append_assoc]
      simp
    · have h900 : ¬ rec.length < 900 := hlt
      have step : pushAll rec (t :: ts) = pushAll rec ts := by
        simp [pushAll, List.foldl_cons, tryPush, h900]
      rw [step, ih rec h]
      have h0 : 900 - rec.length = 0 := by omega
      rw [h0]
      simp

/-! ## Claim theorems: recording buffer, command dispatch, sampling loop -/

/-- C6.  The recording buffer drops rather than wraps: starting empty, after
pushing `900 + k` records (`k > 0`) in emission order, the length is the
capacity 900, each of the first 900 stored records is exactly the record
pushed at that index, and every index from 900 on reads `None`; in
particular no stored record was overwritten. -/
theorem recording_buffer_drops (ts : List Telemetry) (k : ℕ) (hk : 0 < k)
    (hlen : ts.length = 900 + k) :
    (pushAll [] ts).length = 900 ∧
    (∀ i, i < 900 → (pushAll [] ts).get? i = ts.get? i) ∧
    (∀ i, i < k → (pushAll [] ts).get? (900 + i) = none) := by
  have hp : pushAll [] ts = ts.take 900 := by
    simpa using pushAll_eq_append_take ts [] (by simp)
  refine ⟨?_, ?_, ?_⟩
  · rw [hp, List.length_take]
    omega
  · intro i hi
    rw [hp, List.get?_eq_getElem?, List.get?_eq_getElem?]
    exact List.getElem?_take_of_lt hi
  · intro i hi
    rw [hp]
    apply List.get?_eq_none.mpr
    rw [List.length_take]
    omega

/-- Witness for C6: 901 copies of the zero record. -/
theorem recording_buffer_drops_witness :
    (0 < 1 ∧ (List.replicate 901 (Telemetry.mk 0 0 0 0)).length = 900 + 1) ∧
    (pushAll [] (List.replicate 901 (Telemetry.mk 0 0 0 0))).length = 900 :=
  ⟨⟨by decide, by rw [List.length_replicate]⟩,
    (recording_buffer_drops (List.replicate 901 (Telemetry.mk 0 0 0 0)) 1
      (by decide) (by rw [List.length_replicate])).1⟩

/-- C4, evaluated at the failing input.  The source dispatches with a chain
of independent `if data.starts_with(...)` blocks (main.rs:115-132), not
first-match: the command line `"tone"` also satisfies the `"ton"` prefix
test, so besides firing the buzzer it clears the recording buffer, sets
`telemetry_addr` to the sender and sets `streaming = true` — contradicting
the claim that a `tone` line fires the audible alert only. -/
theorem tone_also_starts_streaming :
    handleCommand
      { streaming := false, telemetry_addr := none,
        recording := [⟨5, 6, 7, 8⟩], buzzerFired := false, sent := [] }
      [9, 9, 9, 9, 9, 9] ['t', 'o', 'n', 'e'] =
    { streaming := true, telemetry_addr := some [9, 9, 9, 9, 9, 9],
      recording := [], buzzerFired := true, sent := [] } := by decide

/-- C5, counterexample.  A streaming cycle whose transport send fails
(`_send_result = false`) leaves `telemetry_addr` untouched, and the very
next cycle performs another transport send with no intervening `ton`: the
source discards the send result (`.ok()`, main.rs:242) and the datalink
thread only logs a radio failure (datalink.rs:93-104); no code path clears
the peer. -/
theorem send_failure_keeps_peer :
    (samplingCycle
        { streaming := true, telemetry_addr := some [1, 2, 3, 4, 5, 6],
          recording := [], buzzerFired := false, sent := [] }
        ⟨0, 0, 0, 0⟩ false).telemetry_addr = some [1, 2, 3, 4, 5, 6] ∧
    (samplingCycle
        { streaming := true, telemetry_addr := some [1, 2, 3, 4, 5, 6],
          recording := [], buzzerFired := false, sent := [] }
        ⟨0, 0, 0, 0⟩ false).sent.length = 1 ∧
    (samplingCycle
      (samplingCycle
        { streaming := true, telemetry_addr := some [1, 2, 3, 4, 5, 6],
          recording := [], buzzerFired := false, sent := [] }
        ⟨0, 0, 0, 0⟩ false)
      ⟨0, 0, 0, 0⟩ false).sent.length = 2 := by decide

/-- C5 as amended: the outcome of a transport send never feeds back into
the program state — a cycle behaves identically whether the send succeeds
or fails, `active_peer` (`telemetry_addr`) keeps its value, and whenever
streaming is on, a peer is set and the buffer is not full, the cycle
performs a transport send to that peer regardless of earlier failures. -/
theorem send_result_ignored (st : CommandState) (t : Telemetry) (b : Bool) :
    samplingCycle st t b = samplingCycle st t true ∧
    (samplingCycle st t b).telemetry_addr = st.telemetry_addr ∧
    (∀ addr, st.streaming = true → st.telemetry_addr = some addr →
      st.recording.length < 900 →
      ∃ buffer, (samplingCycle st t b).sent = st.sent ++ [(addr, buffer)]) := by
  refine ⟨rfl, ?_, ?_⟩
  · cases hs : st.streaming <;> rcases ha : st.telemetry_addr with _ | addr <;>
      by_cases hr : st.recording.length < 900 <;>
        simp [samplingCycle, hs, ha, hr, as_bytes_of_le]
  · intro addr hs ha hr
    exact ⟨t.encoded ++ (List.replicate 33 0).drop 16,
      by simp [samplingCycle, hs, ha, hr, as_bytes_of_le]⟩

/-- Witness for the amended C5: a streaming state with peer `[1]`, empty
buffer, failed send. -/
theorem send_result_ignored_witness :
    (samplingCycle
        { streaming := true, telemetry_addr := some [1], recording := [],
          buzzerFired := false, sent := [] }
        ⟨0, 0, 0, 0⟩ false).telemetry_addr = some [1] ∧
    ∃ buffer,
      (samplingCycle
          { streaming := true, telemetry_addr := some [1], recording := [],
            buzzerFired := false, sent := [] }
          ⟨0, 0, 0, 0⟩ false).sent = [] ++ [([1], buffer)] :=
  ⟨(send_result_ignored
      { streaming := true, telemetry_addr := some [1], recording := [],
        buzzerFired := false, sent := [] } ⟨0, 0, 0, 0⟩ false).2.1,
    (send_result_ignored
      { streaming := true, telemetry_addr := some [1], recording := [],
        buzzerFired := false, sent := [] } ⟨0, 0, 0, 0⟩ false).2.2 [1]
      rfl rfl (by decide)⟩

/-! ## Claim theorems: the altimeter -/

/-- C1.  `KalmanState::update` computes exactly the spec's scalar equations:
with prior `(prior_estimate, prior_variance) = (next_x, next_p)`, the new
`x` is the spec's estimate, the new `p` the spec's variance, the next prior
`(next_x, next_p)` is the spec's `(estimate, variance + process_noise)`,
and the sample count `n` increments by one. -/
theorem kalman_update_matches_spec (s : KalmanState) (r_n z_n q : ℝ) :
    (s.update r_n z_n q).x =
      (kalmanSpecStep s.next_x s.next_p r_n z_n q).1 ∧
    (s.update r_n z_n q).p =
      (kalmanSpecStep s.next_x s.next_p r_n z_n q).2.1 ∧
    (s.update r_n z_n q).next_x =
      (kalmanSpecStep s.next_x s.next_p r_n z_n q).2.2.1 ∧
    (s.update r_n z_n q).next_p =
      (kalmanSpecStep s.next_x s.next_p r_n z_n q).2.2.2 ∧
    (s.update r_n z_n q).n = s.n + 1 :=
  ⟨rfl, rfl, rfl, rfl, rfl⟩

/-- C7.  For every positive reference pressure, `calc_altitude` is zero at
`pressure = reference`, and it is strictly decreasing in the pressure
argument over positive pressures. -/
theorem calc_altitude_zero_at_ref_and_antitone (reference : ℝ)
    (href : 0 < reference) :
    calc_altitude reference reference = 0 ∧
    ∀ p1 p2 : ℝ, 0 < p1 → p1 < p2 →
      calc_altitude p2 reference < calc_altitude p1 reference := by
  constructor
  · rw [calc_altitude, div_self (ne_of_gt href), Real.one_rpow]
    ring
  · intro p1 p2 hp1 h12
    rw [calc_altitude, calc_altitude]
    have hd : p1 / reference < p2 / reference :=
      (div_lt_div_iff_of_pos_right href).mpr h12
    have h0 : (0 : ℝ) ≤ p1 / reference := (div_pos hp1 href).le
    have hr : (p1 / reference) ^ (0.190284 : ℝ) <
        (p2 / reference) ^ (0.190284 : ℝ) :=
      Real.rpow_lt_rpow h0 hd (by norm_num)
    nlinarith [hr]

/-- Witness for C7 at `reference = 1`, pressures `1 < 2`. -/
theorem calc_altitude_zero_at_ref_and_antitone_witness :
    (0 : ℝ) < 1 ∧ calc_altitude 1 1 = 0 ∧
      calc_altitude 2 1 < calc_altitude 1 1 :=
  ⟨by norm_num, (calc_altitude_zero_at_ref_and_antitone 1 (by norm_num)).1,
    (calc_altitude_zero_at_ref_and_antitone 1 (by norm_num)).2 1 2
      (by norm_num) (by norm_num)⟩

/-- C8.  Before any sample, each running minimum is `f64::MAX` and each
running maximum is `f64::MIN`; and after every `update_stats`, for each of
altitude, temperature and pressure the running minimum is at most the
current value, which is at most the running maximum — so the invariant is
established by the first successful sample and preserved by each later
one. -/
theorem extrema_invariant :
    (AltimeterStats.default.minimum_altitude = f64MAX ∧
      AltimeterStats.default.minimum_temperature = f64MAX ∧
      AltimeterStats.default.minimum_pressure = f64MAX ∧
      AltimeterStats.default.maximum_altitude = f64MIN ∧
      AltimeterStats.default.maximum_temperature = f64MIN ∧
      AltimeterStats.default.maximum_pressure = f64MIN) ∧
    ∀ (stats : AltimeterStats) (sea temp press : ℝ),
      ((updateStats stats sea temp press).minimum_altitude ≤
          (updateStats stats sea temp press).altitude ∧
        (updateStats stats sea temp press).altitude ≤
          (updateStats stats sea temp press).maximum_altitude) ∧
      ((updateStats stats sea temp press).minimum_temperature ≤
          (updateStats stats sea temp press).temperature ∧
        (updateStats stats sea temp press).temperature ≤
          (updateStats stats sea temp press).maximum_temperature) ∧
      ((updateStats stats sea temp press).minimum_pressure ≤
          (updateStats stats sea temp press).pressure ∧
        (updateStats stats sea temp press).pressure ≤
          (updateStats stats sea temp press).maximum_pressure) := by
  refine ⟨⟨rfl, rfl, rfl, rfl, rfl, rfl⟩, ?_⟩
  intro stats sea temp press
  refine ⟨⟨?_, ?_⟩, ⟨?_, ?_⟩, ⟨?_, ?_⟩⟩ <;>
    dsimp only [updateStats] <;>
    first
      | exact min_le_right _ _
      | exact le_max_right _ _

/-! ## Helper lemmas: the filter on a constant measurement stream -/

theorem kstep_next_x_eq (z : ℝ) (s : KalmanState) :
    (kstep z s).next_x =
      s.next_x + s.next_p / (s.next_p + 1) * (z - s.next_x) := rfl

theorem kstep_p_eq (z : ℝ) (s : KalmanState) :
    (kstep z s).p = s.next_p * (1 - s.next_p / (s.next_p + 1)) := rfl

theorem kstep_next_p_eq (z : ℝ) (s : KalmanState) :
    (kstep z s).next_p = (kstep z s).p + 0.4 := rfl

theorem kstep_gap (z : ℝ) (s : KalmanState) (hp : 0 ≤ s.next_p) :
    z - (kstep z s).next_x = (z - s.next_x) / (s.next_p + 1) := by
  have h1 : s.next_p + 1 ≠ 0 := ne_of_gt (by linarith)
  rw [kstep_next_x_eq]
  field_simp
  ring

theorem kstep_p_nonneg (z : ℝ) (s : KalmanState) (hp : 0 ≤ s.next_p) :
    0 ≤ (kstep z s).p := by
  rw [kstep_p_eq]
  have h1 : (0 : ℝ) < s.next_p + 1 := by linarith
  have hk : s.next_p / (s.next_p + 1) ≤ 1 := by
    rw [div_le_one h1]
    linarith
  nlinarith

theorem kstep_next_p_ge (z : ℝ) (s : KalmanState) (hp : 0 ≤ s.next_p) :
    0.4 ≤ (kstep z s).next_p := by
  rw [kstep_next_p_eq]
  have := kstep_p_nonneg z s hp
  linarith

theorem kiter_next_p_ge (z : ℝ) (s : KalmanState) (hp : 0.4 ≤ s.next_p) :
    ∀ n, 0.4 ≤ ((kstep z)^[n] s).next_p := by
  intro n
  induction n with
  | zero => exact hp
  | succ n ih =>
    rw [Function.iterate_succ_apply']
    exact kstep_next_p_ge z _ (by linarith)

theorem kstep_le (z : ℝ) (s : KalmanState) (hp : 0 ≤ s.next_p)
    (hx : s.next_x ≤ z) :
    s.next_x ≤ (kstep z s).next_x ∧ (kstep z s).next_x ≤ z := by
  have h1 : (0 : ℝ) < s.next_p + 1 := by linarith
  have hk0 : 0 ≤ s.next_p / (s.next_p + 1) := div_nonneg hp h1.le
  constructor
  · rw [kstep_next_x_eq]
    nlinarith
  · have hg := kstep_gap z s hp
    have h0 : 0 ≤ (z - s.next_x) / (s.next_p + 1) :=
      div_nonneg (by linarith) h1.le
    linarith

theorem kstep_ge (z : ℝ) (s : KalmanState) (hp : 0 ≤ s.next_p)
    (hx : z ≤ s.next_x) :
    (kstep z s).next_x ≤ s.next_x ∧ z ≤ (kstep z s).next_x := by
  have h1 : (0 : ℝ) < s.next_p + 1 := by linarith
  have hk0 : 0 ≤ s.next_p / (s.next_p + 1) := div_nonneg hp h1.le
  constructor
  · rw [kstep_next_x_eq]
    nlinarith
  · have hg := kstep_gap z s hp
    have h0 : (z - s.next_x) / (s.next_p + 1) ≤ 0 :=
      div_nonpos_of_nonpos_of_nonneg (by linarith) h1.le
    linarith

theorem kstep_abs_contract (z : ℝ) (s : KalmanState) (hp : 0.4 ≤ s.next_p) :
    |z - (kstep z s).next_x| ≤ 5 / 7 * |z - s.next_x| := by
  have h1 : (0 : ℝ) < s.next_p + 1 := by linarith
  rw [kstep_gap z s (by linarith), abs_div, abs_of_pos h1, div_le_iff₀ h1]
  have h75 : (7 : ℝ) / 5 ≤ s.next_p + 1 := by linarith
  have hm := mul_le_mul_of_nonneg_left h75
    (show (0 : ℝ) ≤ 5 / 7 * |z - s.next_x| by positivity)
  calc |z - s.next_x| = 5 / 7 * |z - s.next_x| * (7 / 5) := by ring
    _ ≤ 5 / 7 * |z - s.next_x| * (s.next_p + 1) := by nlinarith

theorem kstep_var_lt (z : ℝ) (s : KalmanState)
    (hlink : s.next_p = s.p + 0.4) (hp0 : 0 ≤ s.p)
    (hthr : 0.4 < s.p ^ 2 + 0.4 * s.p) : (kstep z s).p < s.p := by
  have h1 : (0 : ℝ) < s.p + 1.4 := by linarith
  have key : (kstep z s).p = (s.p + 0.4) / (s.p + 1.4) := by
    rw [kstep_p_eq, hlink, eq_div_iff (ne_of_gt h1)]
    have h2 : s.p + 0.4 + 1 ≠ 0 := ne_of_gt (by linarith)
    field_simp
    ring_nf
    exact Or.inl trivial
  rw [key, div_lt_iff₀ h1]
  nlinarith

/-- C9.  Constant measurement stream `z` through the filter exactly as
`update_stats` drives it (measurement noise `1.0`, process noise `0.4`),
from any state whose prior variance is at least the process noise — true of
the seed (`next_p = 102178`) and re-established by every update.  The
estimate (`next_x`; the `x` field coincides with it after every update)
approaches `z` with geometric rate at most `5/7` per step, monotonically and
without overshooting from either side; and the posterior variance `p`
strictly decreases on every step at which it still exceeds the steady state
the process noise imposes (i.e. while `0.4 < p² + 0.4·p`). -/
theorem kalman_constant_stream (z : ℝ) (s : KalmanState)
    (hp : 0.4 ≤ s.next_p) :
    (∀ n, ((kstep z)^[n + 1] s).x = ((kstep z)^[n + 1] s).next_x) ∧
    (∀ n, |z - ((kstep z)^[n] s).next_x| ≤ (5 / 7) ^ n * |z - s.next_x|) ∧
    (s.next_x ≤ z → ∀ n,
      ((kstep z)^[n] s).next_x ≤ ((kstep z)^[n + 1] s).next_x ∧
      ((kstep z)^[n] s).next_x ≤ z) ∧
    (z ≤ s.next_x → ∀ n,
      ((kstep z)^[n + 1] s).next_x ≤ ((kstep z)^[n] s).next_x ∧
      z ≤ ((kstep z)^[n] s).next_x) ∧
    (∀ n, 0.4 < ((kstep z)^[n + 1] s).p ^ 2 + 0.4 * ((kstep z)^[n + 1] s).p →
      ((kstep z)^[n + 2] s).p < ((kstep z)^[n + 1] s).p) := by
  have hinv := kiter_next_p_ge z s hp
  refine ⟨?_, ?_, ?_, ?_, ?_⟩
  · intro n
    rw [Function.iterate_succ_apply']
    rfl
  · intro n
    induction n with
    | zero => simp
    | succ n ih =>
      rw [Function.iterate_succ_apply']
      calc |z - (kstep z ((kstep z)^[n] s)).next_x|
          ≤ 5 / 7 * |z - ((kstep z)^[n] s).next_x| :=
            kstep_abs_contract z _ (hinv n)
        _ ≤ 5 / 7 * ((5 / 7) ^ n * |z - s.next_x|) := by
            have := mul_le_mul_of_nonneg_left ih
              (show (0 : ℝ) ≤ 5 / 7 by norm_num)
            linarith
        _ = (5 / 7) ^ (n + 1) * |z - s.next_x| := by ring
  · intro hx n
    induction n with
    | zero =>
      constructor
      · simp only [Function.iterate_zero_apply, Function.iterate_one]
        exact (kstep_le z s (by linarith) hx).1
      · simpa using hx
    | succ n ih =>
      have hx1 : ((kstep z)^[n + 1] s).next_x ≤ z := by
        rw [Function.iterate_succ_apply']
        exact (kstep_le z ((kstep z)^[n] s) (by linarith [hinv n]) ih.2).2
      refine ⟨?_, hx1⟩
      rw [Function.iterate_succ_apply' (kstep z) (n + 1) s]
      exact (kstep_le z ((kstep z)^[n + 1] s)
        (by linarith [hinv (n + 1)]) hx1).1
  · intro hx n
    induction n with
    | zero =>
      constructor
      · simp only [Function.iterate_zero_apply, Function.iterate_one]
        exact (kstep_ge z s (by linarith) hx).1
      · simpa using hx
    | succ n ih =>
      have hx1 : z ≤ ((kstep z)^[n + 1] s).next_x := by
        rw [Function.iterate_succ_apply']
        exact (kstep_ge z ((kstep z)^[n] s) (by linarith [hinv n]) ih.2).2
      refine ⟨?_, hx1⟩
      rw [Function.iterate_succ_apply' (kstep z) (n + 1) s]
      exact (kstep_ge z ((kstep z)^[n + 1] s)
        (by linarith [hinv (n + 1)]) hx1).1
  · intro n hthr
    have hlink : ((kstep z)^[n + 1] s).next_p =
        ((kstep z)^[n + 1] s).p + 0.4 := by
      rw [Function.iterate_succ_apply']
      exact kstep_next_p_eq z _
    have hp0 : 0 ≤ ((kstep z)^[n + 1] s).p := by
      rw [Function.iterate_succ_apply']
      exact kstep_p_nonneg z _ (by linarith [hinv n])
    have hlt := kstep_var_lt z ((kstep z)^[n + 1] s) hlink hp0 hthr
    rw [Function.iterate_succ_apply' (kstep z) (n + 1) s]
    exact hlt

/-- Witness for C9: seed state with estimate `0`, prior variance `1`,
constant measurement `1`. -/
theorem kalman_constant_stream_witness :
    (0.4 : ℝ) ≤ (KalmanState.mk 0 0 0 0 1).next_p ∧
    ∀ n, |1 - ((kstep 1)^[n] (KalmanState.mk 0 0 0 0 1)).next_x| ≤
      (5 / 7) ^ n * |1 - (KalmanState.mk 0 0 0 0 1).next_x| := by
  have hhp : (0.4 : ℝ) ≤ (KalmanState.mk 0 0 0 0 1).next_p := by
    show (0.4 : ℝ) ≤ 1
    norm_num
  exact ⟨hhp, (kalman_constant_stream 1 (KalmanState.mk 0 0 0 0 1) hhp).2.1⟩

end Rocket
